import Mathlib

/-! AdrixCH: crosshair code codec, renderer geometry and settings actions.

A shallow embedding of `src/AdrixCH.cpp`.

* `wchar_t` strings (`std::wstring`) are `List Char`.
* `int` is `Int`.  Signed overflow is undefined behaviour in C++, so the embedding
  describes the executions in which no `int` expression overflows.
* `COLORREF` / `unsigned int` is `Nat`; the only masking the source performs
  (`& 0xFFFFFF`) is kept explicit.
* The C library pieces the source calls (`iswdigit`, `iswxdigit`, `swprintf`,
  `swscanf_s`) are embedded after ISO C, for exactly the conversion specifiers the
  source uses.
* Drawing and window calls are recorded as an ordered list of calls.
-/

namespace AdrixCH

/-! ## Character classification (ISO C, "C" locale) -/

/-- The `iswdigit` test: the decimal digits `0`..`9`. -/
def iswdigit (c : Char) : Bool :=
  decide ('0'.toNat ≤ c.toNat ∧ c.toNat ≤ '9'.toNat)

/-- The `iswxdigit` test: `0`..`9`, `a`..`f`, `A`..`F`. -/
def iswxdigit (c : Char) : Bool :=
  decide (('0'.toNat ≤ c.toNat ∧ c.toNat ≤ '9'.toNat) ∨
    ('a'.toNat ≤ c.toNat ∧ c.toNat ≤ 'f'.toNat) ∨
    ('A'.toNat ≤ c.toNat ∧ c.toNat ≤ 'F'.toNat))

/-- The `iswspace` test: space, `\t`, `\n`, `\v`, `\f`, `\r`. -/
def iswspace (c : Char) : Bool :=
  decide (c.toNat = 32 ∨ (9 ≤ c.toNat ∧ c.toNat ≤ 13))

/-- Numeric value of a decimal digit character. -/
def digitVal (c : Char) : Nat := c.toNat - '0'.toNat

/-- Numeric value of a hexadecimal digit character (either case). -/
def hexVal (c : Char) : Nat :=
  if iswdigit c then c.toNat - '0'.toNat
  else if 'a'.toNat ≤ c.toNat then c.toNat - 'a'.toNat + 10
  else c.toNat - 'A'.toNat + 10

/-- The character written for a decimal digit `d < 10`. -/
def digitChar (d : Nat) : Char := Char.ofNat ('0'.toNat + d)

/-- The character written by `%X` for a hexadecimal digit `d < 16` (upper case). -/
def hexChar (d : Nat) : Char :=
  if d < 10 then Char.ofNat ('0'.toNat + d) else Char.ofNat ('A'.toNat + (d - 10))

/-! ## `swprintf` conversions used by the source -/

/-- Digits of `n` in base `base`, most significant first, pushed in front of `acc`.
The first argument bounds the number of digits produced. -/
def toDigitsAux (base : Nat) (digit : Nat → Char) : Nat → Nat → List Char → List Char
  | 0, _, acc => acc
  | fuel + 1, n, acc =>
    if n < base then digit n :: acc
    else toDigitsAux base digit fuel (n / base) (digit (n % base) :: acc)

/-- Digits of `n` in base `base` (at least one digit, no leading zero unless `n = 0`). -/
def toDigits (base : Nat) (digit : Nat → Char) (n : Nat) : List Char :=
  toDigitsAux base digit (n + 1) n []

/-- Left padding with `0` up to a minimum width; longer digit strings are kept whole. -/
def zeroPad (w : Nat) (ds : List Char) : List Char :=
  List.replicate (w - ds.length) '0' ++ ds

/-- The conversion `%0wd` of an `int` (`w = 0` is plain `%d`): a minimum field width,
the sign counted in the width, never a truncation. -/
def fmt_d (w : Nat) (v : Int) : List Char :=
  if v < 0 then '-' :: zeroPad (w - 1) (toDigits 10 digitChar v.natAbs)
  else zeroPad w (toDigits 10 digitChar v.toNat)

/-- The conversion `%0wX` of an unsigned value. -/
def fmt_X (w : Nat) (v : Nat) : List Char :=
  zeroPad w (toDigits 16 hexChar v)

/-! ## `swscanf_s` conversions used by the source -/

/-- Reads at most `w` leading characters accepted by `isDig`, accumulating their value. -/
def readDigits (isDig : Char → Bool) (val : Char → Nat) (base : Nat) :
    Nat → List Char → Nat → Nat × List Char
  | 0, s, acc => (acc, s)
  | _ + 1, [], acc => (acc, [])
  | w + 1, c :: s, acc =>
    if isDig c then readDigits isDig val base w s (acc * base + val c) else (acc, c :: s)

/-- An optional sign, counted in the remaining field width `w`:
returns (negative?, remaining width, remaining input). -/
def readSign (w : Nat) (s : List Char) : Bool × Nat × List Char :=
  match w, s with
  | w + 1, c :: t =>
    if c = '-' then (true, w, t) else if c = '+' then (false, w, t) else (false, w + 1, c :: t)
  | w, s => (false, w, s)

/-- An optional `0x` / `0X` prefix, counted in the remaining field width. -/
def readHexMark (w : Nat) (s : List Char) : Nat × List Char :=
  match w, s with
  | w + 2, c :: x :: t =>
    if c = '0' ∧ (x = 'x' ∨ x = 'X') then (w, t) else (w + 2, c :: x :: t)
  | w, s => (w, s)

/-- The conversion `%wd` (`none`: no width): skips white space, reads an optionally signed
run of decimal digits within the field width; fails when no digit is read.
Returns the value and the unread input.  The value is the number the digits denote: a run
of more than nine digits can exceed `int`, which ISO C leaves undefined. -/
def scan_d (width : Option Nat) (s : List Char) : Option (Int × List Char) :=
  let s := s.dropWhile iswspace
  let (neg, w, s) := readSign (width.getD s.length) s
  match w, s with
  | _ + 1, c :: _ =>
    if iswdigit c then
      let (v, rest) := readDigits iswdigit digitVal 10 w s 0
      some (if neg then -(v : Int) else (v : Int), rest)
    else none
  | _, _ => none

/-- The conversion `%wX` into an `unsigned int`: skips white space, reads an optional sign,
an optional `0x` prefix and a run of hexadecimal digits within the field width; fails when
no digit is read.  A minus sign negates modulo `2 ^ 32`. -/
def scan_X (width : Option Nat) (s : List Char) : Option (Nat × List Char) :=
  let s := s.dropWhile iswspace
  let (neg, w, s) := readSign (width.getD s.length) s
  let (w, s) := readHexMark w s
  match w, s with
  | _ + 1, c :: _ =>
    if iswxdigit c then
      let (v, rest) := readDigits iswxdigit hexVal 16 w s 0
      some (if neg then (2 ^ 32 - v % 2 ^ 32) % 2 ^ 32 else v % 2 ^ 32, rest)
    else none
  | _, _ => none

/-- A directive of a `swscanf_s` format string. -/
inductive Directive where
  /-- The directive `%wd`. -/
  | d (width : Option Nat)
  /-- The directive `%wX`. -/
  | X (width : Option Nat)
  /-- An ordinary character, matched literally. -/
  | lit (c : Char)
  deriving DecidableEq, Repr

/-- Runs the directives of a format over the input and returns the converted values in
order; the scan stops at the first directive that fails, so the list holds one value
for each pointer argument that was assigned. -/
def swscanf_s : List Directive → List Char → List Int
  | [], _ => []
  | Directive.d w :: fmt, s =>
    match scan_d w s with
    | some (v, rest) => v :: swscanf_s fmt rest
    | none => []
  | Directive.X w :: fmt, s =>
    match scan_X w s with
    | some (v, rest) => (v : Int) :: swscanf_s fmt rest
    | none => []
  | Directive.lit c :: fmt, s =>
    match s with
    | c' :: rest => if c' = c then swscanf_s fmt rest else []
    | [] => []

/-! ## The configuration and the codec -/

/-- The seven configuration globals of the source
(`g_len`, `g_gap`, `g_thickness`, `g_outlineThickness`, `g_centerDot`, `g_fillColor`,
`g_outlineColor`). -/
structure CrosshairConfig where
  g_len : Int
  g_gap : Int
  g_thickness : Int
  g_outlineThickness : Int
  g_centerDot : Bool
  g_fillColor : Nat
  g_outlineColor : Nat
  deriving DecidableEq, Repr

/-- `GetCrosshairCode`: `swprintf(buf, 32, L"%02d%02d%02d%02d%d-%06X-%06X", ...)`.
The buffer holds 32 wide characters, so at most 31 characters are kept. -/
def GetCrosshairCode (c : CrosshairConfig) : List Char :=
  (fmt_d 2 c.g_len ++ fmt_d 2 c.g_gap ++ fmt_d 2 c.g_thickness ++
    fmt_d 2 c.g_outlineThickness ++ fmt_d 0 (if c.g_centerDot then 1 else 0) ++
    ['-'] ++ fmt_X 6 (c.g_fillColor &&& 0xFFFFFF) ++
    ['-'] ++ fmt_X 6 (c.g_outlineColor &&& 0xFFFFFF)).take 31

/-- The locals of `LoadCrosshairCode`, declared without initialiser: the values they
hold where `swscanf_s` assigns nothing. -/
structure ScanLocals where
  len : Int
  gap : Int
  thick : Int
  outline : Int
  dot : Int
  fill : Nat
  outlineCol : Nat
  deriving DecidableEq, Repr

/-- The format `L"%2d%2d%2d%2d%d-%6X-%6X"`. -/
def codeFormat : List Directive :=
  [Directive.d (some 2), Directive.d (some 2), Directive.d (some 2), Directive.d (some 2),
   Directive.d none, Directive.lit '-', Directive.X (some 6), Directive.lit '-',
   Directive.X (some 6)]

/-- `LoadCrosshairCode`: scans the code and stores the seven locals into the globals.
`uninit` gives the contents of the locals before the scan. -/
def LoadCrosshairCode (uninit : ScanLocals) (code : List Char) : CrosshairConfig :=
  let vals := swscanf_s codeFormat code
  let len := vals.getD 0 uninit.len
  let gap := vals.getD 1 uninit.gap
  let thick := vals.getD 2 uninit.thick
  let outline := vals.getD 3 uninit.outline
  let dot := vals.getD 4 uninit.dot
  let fill := (vals.get? 5).elim uninit.fill Int.toNat
  let outlineCol := (vals.get? 6).elim uninit.outlineCol Int.toNat
  { g_len := len, g_gap := gap, g_thickness := thick, g_outlineThickness := outline,
    g_centerDot := decide (dot ≠ 0), g_fillColor := fill, g_outlineColor := outlineCol }

/-- The character `code[i]` of a `std::wstring` (the terminating null at the end). -/
def charAt (code : List Char) (i : Nat) : Char := code.getD i (Char.ofNat 0)

/-- `IsValidCrosshairCode`. -/
def IsValidCrosshairCode (code : List Char) : Bool :=
  if code.length ≠ 23 then false
  else if charAt code 9 ≠ '-' ∨ charAt code 16 ≠ '-' then false
  else if (List.range' 0 9).any (fun i => !iswdigit (charAt code i)) then false
  else if charAt code 8 ≠ '0' ∧ charAt code 8 ≠ '1' then false
  else if (List.range' 10 6).any (fun i => !iswxdigit (charAt code i)) then false
  else if (List.range' 17 6).any (fun i => !iswxdigit (charAt code i)) then false
  else true


/-! ## Renderer -/

/-- The Win32 `RECT`. -/
structure RECT where
  left : Int
  top : Int
  right : Int
  bottom : Int
  deriving DecidableEq, Repr

/-- The GDI drawing calls of the source, with the brush or pen selected for them. -/
inductive GdiCall where
  /-- The call `FillRect(hdc, &r, brush)` with a solid brush of the given colour. -/
  | FillRect (r : RECT) (brushColor : Nat)
  /-- The call `Rectangle(hdc, l, t, r, b)` under a solid pen and the null brush. -/
  | Rectangle (left top right bottom : Int) (penWidth : Int) (penColor : Nat)
  deriving DecidableEq, Repr

/-- The lambda `DrawRectWithOutline` of `DrawCrosshair`. -/
def DrawRectWithOutline (fillColor outlineColor : Nat) (outlineThickness : Int) (r : RECT) :
    List GdiCall :=
  [GdiCall.FillRect r fillColor] ++
    (if outlineThickness > 0 then
      [GdiCall.Rectangle r.left r.top r.right r.bottom outlineThickness outlineColor]
    else [])

/-- The local `left` of `DrawCrosshair`. -/
def DrawCrosshair.left (cx cy len gap thickness : Int) : RECT :=
  { left := cx - len - gap, top := cy - Int.tdiv thickness 2,
    right := cx - gap, bottom := cy + Int.tdiv thickness 2 }

/-- The local `right` of `DrawCrosshair`. -/
def DrawCrosshair.right (cx cy len gap thickness : Int) : RECT :=
  { left := cx + gap, top := cy - Int.tdiv thickness 2,
    right := cx + len + gap, bottom := cy + Int.tdiv thickness 2 }

/-- The local `top` of `DrawCrosshair`. -/
def DrawCrosshair.top (cx cy len gap thickness : Int) : RECT :=
  { left := cx - Int.tdiv thickness 2, top := cy - len - gap,
    right := cx + Int.tdiv thickness 2, bottom := cy - gap }

/-- The local `bottom` of `DrawCrosshair`. -/
def DrawCrosshair.bottom (cx cy len gap thickness : Int) : RECT :=
  { left := cx - Int.tdiv thickness 2, top := cy + gap,
    right := cx + Int.tdiv thickness 2, bottom := cy + len + gap }

/-- The local `dot` of `DrawCrosshair`. -/
def DrawCrosshair.dot (cx cy thickness : Int) : RECT :=
  { left := cx - Int.tdiv thickness 2, top := cy - Int.tdiv thickness 2,
    right := cx + Int.tdiv thickness 2, bottom := cy + Int.tdiv thickness 2 }

/-- `DrawCrosshair`: the GDI calls it issues, in order. -/
def DrawCrosshair (cx cy len gap thickness : Int) (fillColor outlineColor : Nat)
    (centerDot : Bool) (outlineThickness : Int) : List GdiCall :=
  let draw := DrawRectWithOutline fillColor outlineColor outlineThickness
  draw (DrawCrosshair.left cx cy len gap thickness) ++
  draw (DrawCrosshair.right cx cy len gap thickness) ++
  draw (DrawCrosshair.top cx cy len gap thickness) ++
  draw (DrawCrosshair.bottom cx cy len gap thickness) ++
  (if centerDot then draw (DrawCrosshair.dot cx cy thickness) else [])

/-- The macro `RGB(r, g, b)` of the Windows headers. -/
def RGB (r g b : Nat) : Nat := (r % 256) ||| ((g % 256) <<< 8) ||| ((b % 256) <<< 16)

/-- The `WM_PAINT` case of `WndProc`, for a screen of the given size: the colour-key
background, then the crosshair with `g_thickness * 2`. -/
def WndProc_WM_PAINT (screenW screenH : Int) (c : CrosshairConfig) : List GdiCall :=
  [GdiCall.FillRect { left := 0, top := 0, right := screenW, bottom := screenH } (RGB 0 0 0)] ++
    DrawCrosshair (Int.tdiv screenW 2) (Int.tdiv screenH 2) c.g_len c.g_gap (c.g_thickness * 2)
      c.g_fillColor c.g_outlineColor c.g_centerDot c.g_outlineThickness

/-- The rectangle of a fill call. -/
def GdiCall.filled : GdiCall → Option RECT
  | GdiCall.FillRect r _ => some r
  | GdiCall.Rectangle _ _ _ _ _ _ => none

/-- Whether a call is a fill. -/
def GdiCall.isFill : GdiCall → Bool
  | GdiCall.FillRect _ _ => true
  | GdiCall.Rectangle _ _ _ _ _ _ => false

/-- Whether a call is a border stroke. -/
def GdiCall.isStroke : GdiCall → Bool
  | GdiCall.FillRect _ _ => false
  | GdiCall.Rectangle _ _ _ _ _ _ => true

/-- The pixel columns of a `RECT`: the left edge is inside, the right edge is not
(the convention of `FillRect`, `Rectangle` and `PtInRect`). -/
def RECT.hasColumn (r : RECT) (x : Int) : Prop := r.left ≤ x ∧ x < r.right

instance (r : RECT) (x : Int) : Decidable (r.hasColumn x) := by
  unfold RECT.hasColumn; infer_instance

/-! ## Settings window -/

/-- The state the handlers of `SettingsProc` read and write: the configuration globals,
the text of the code field `hCrosshairCodeInput` and of the four labels. -/
structure SettingsWindow where
  cfg : CrosshairConfig
  codeInput : List Char
  labelLen : List Char
  labelThickness : List Char
  labelOutline : List Char
  labelGap : List Char
  deriving DecidableEq, Repr

/-- The calls of a handler that leave the settings state, in order. -/
inductive UiCall where
  /-- The call `SaveSetting(iniPath, L"Crosshair", key, value)`. -/
  | SaveSetting (key : String) (value : List Char)
  /-- The call `SendMessage(hwndMain, WM_CLOSE, 0, 0)`. -/
  | CloseMain
  /-- The call `DestroyWindow(hwnd)`. -/
  | DestroyWindow
  /-- The call `MessageBox(hwnd, text, caption, MB_OK | MB_ICONERROR)`. -/
  | MessageBox (text caption : String)
  /-- The call `LoadCrosshairCode(code)`. -/
  | LoadCrosshairCode (code : List Char)
  /-- The call `SendMessage(GetDlgItem(hwnd, id), TBM_SETPOS, TRUE, pos)`. -/
  | SetTrackbarPos (id : Nat) (pos : Int)
  /-- The call `InvalidateRect(hwndMain, NULL, TRUE)`. -/
  | InvalidateMain
  /-- The call `InvalidateRect(hwnd, NULL, TRUE)`. -/
  | InvalidateSettings
  deriving DecidableEq, Repr

/-- The messages of `SettingsProc` that touch the configuration. -/
inductive Msg where
  /-- The message `WM_COMMAND` with `LOWORD(wParam) = id`. -/
  | WM_COMMAND (id : Nat)
  /-- The message `WM_HSCROLL` from the trackbar `ctrlId` standing at `pos`. -/
  | WM_HSCROLL (ctrlId : Nat) (pos : Int)
  deriving DecidableEq, Repr

/-- The call `swprintf(buf, 32, L"<name>: %d", v)` for a label. -/
def labelText (name : String) (v : Int) : List Char :=
  (name.toList ++ [':', ' '] ++ fmt_d 0 v).take 31

/-- The call `GetWindowText(hCrosshairCodeInput, buf, 256)`: at most 255 characters. -/
def GetWindowText (text : List Char) : List Char := text.take 255

/-- `SettingsProc` on `WM_COMMAND` (cases 1 to 5) and `WM_HSCROLL`.
`chosen` is the outcome of the `ChooseColor` dialog (`none`: cancelled, `some rgb`:
confirmed with `cc.rgbResult = rgb`); `uninit` is passed on to `LoadCrosshairCode`. -/
def SettingsProc (chosen : Option Nat) (uninit : ScanLocals) (st : SettingsWindow) :
    Msg → SettingsWindow × List UiCall
  | Msg.WM_COMMAND 1 =>
    (st,
      [UiCall.SaveSetting "Length" (fmt_d 0 st.cfg.g_len),
       UiCall.SaveSetting "GapSize" (fmt_d 0 st.cfg.g_gap),
       UiCall.SaveSetting "Thickness" (fmt_d 0 st.cfg.g_thickness),
       UiCall.SaveSetting "OutlineThickness" (fmt_d 0 st.cfg.g_outlineThickness),
       UiCall.SaveSetting "CenterDot" [if st.cfg.g_centerDot then '1' else '0'],
       UiCall.SaveSetting "FillColor" (fmt_d 0 st.cfg.g_fillColor),
       UiCall.SaveSetting "OutlineColor" (fmt_d 0 st.cfg.g_outlineColor),
       UiCall.CloseMain, UiCall.DestroyWindow])
  | Msg.WM_COMMAND 2 =>
    let cfg := { st.cfg with g_centerDot := !st.cfg.g_centerDot }
    ({ st with cfg := cfg, codeInput := GetCrosshairCode cfg },
      [UiCall.InvalidateMain, UiCall.InvalidateSettings])
  | Msg.WM_COMMAND 3 =>
    match chosen with
    | some rgbResult =>
      let rgbResult := if rgbResult = RGB 0 0 0 then RGB 0 0 1 else rgbResult
      let cfg := { st.cfg with g_fillColor := rgbResult }
      ({ st with cfg := cfg, codeInput := GetCrosshairCode cfg }, [UiCall.InvalidateMain])
    | none => (st, [])
  | Msg.WM_COMMAND 4 =>
    match chosen with
    | some rgbResult =>
      let rgbResult := if rgbResult = RGB 0 0 0 then RGB 0 0 1 else rgbResult
      let cfg := { st.cfg with g_outlineColor := rgbResult }
      ({ st with cfg := cfg, codeInput := GetCrosshairCode cfg }, [UiCall.InvalidateMain])
    | none => (st, [])
  | Msg.WM_COMMAND 5 =>
    let code := GetWindowText st.codeInput
    if !IsValidCrosshairCode code then
      (st, [UiCall.MessageBox "Invalid Crosshair Code!" "Error"])
    else
      let cfg := LoadCrosshairCode uninit code
      ({ cfg := cfg,
         codeInput := GetCrosshairCode cfg,
         labelLen := labelText "Length" cfg.g_len,
         labelThickness := labelText "Thickness" cfg.g_thickness,
         labelOutline := labelText "Outline" cfg.g_outlineThickness,
         labelGap := labelText "Gap" cfg.g_gap },
        [UiCall.LoadCrosshairCode code,
         UiCall.SetTrackbarPos 101 cfg.g_len, UiCall.SetTrackbarPos 102 cfg.g_thickness,
         UiCall.SetTrackbarPos 103 cfg.g_outlineThickness, UiCall.SetTrackbarPos 104 cfg.g_gap,
         UiCall.InvalidateMain, UiCall.InvalidateSettings])
  | Msg.WM_COMMAND _ => (st, [])
  | Msg.WM_HSCROLL ctrlId pos =>
    let st := { st with codeInput := GetCrosshairCode st.cfg }
    let st :=
      if ctrlId = 101 then
        { st with cfg := { st.cfg with g_len := pos }, labelLen := labelText "Length" pos }
      else if ctrlId = 102 then
        { st with cfg := { st.cfg with g_thickness := pos },
                  labelThickness := labelText "Thickness" pos }
      else if ctrlId = 103 then
        { st with cfg := { st.cfg with g_outlineThickness := pos },
                  labelOutline := labelText "Outline" pos }
      else if ctrlId = 104 then
        { st with cfg := { st.cfg with g_gap := pos }, labelGap := labelText "Gap" pos }
      else st
    (st, [UiCall.InvalidateMain])

/-! ## Notions used to state the properties -/

/-- The `k` low digits of `v` in base `base`, most significant first. -/
def fixedDigits (base : Nat) (digit : Nat → Char) : Nat → Nat → List Char
  | 0, _ => []
  | k + 1, v => fixedDigits base digit k (v / base) ++ [digit (v % base)]

/-- The value of a string of decimal digits. -/
def decimalValue (cs : List Char) : Nat := cs.foldl (fun a c => a * 10 + digitVal c) 0

/-- The value of a string of hexadecimal digits. -/
def hexValue (cs : List Char) : Nat := cs.foldl (fun a c => a * 16 + hexVal c) 0

/-- The `n` characters of `s` from index `pos` on. -/
def substr (s : List Char) (pos n : Nat) : List Char := (s.drop pos).take n

/-- Two decimal digits, zero-padded (the fields `LL`, `GG`, `TT`, `OO` of the layout). -/
def twoDigits (n : Nat) : List Char := [digitChar (n / 10), digitChar (n % 10)]

/-- Six upper-case hexadecimal digits of the low 24 bits (the fields `FFFFFF`, `OOOOOO`). -/
def sixHexDigits (v : Nat) : List Char :=
  [hexChar (v / 16 ^ 5 % 16), hexChar (v / 16 ^ 4 % 16), hexChar (v / 16 ^ 3 % 16),
   hexChar (v / 16 ^ 2 % 16), hexChar (v / 16 % 16), hexChar (v % 16)]

/-- The layout `LLGGTTOOD-FFFFFF-OOOOOO` of a configuration, as the format is documented. -/
def codeLayout (c : CrosshairConfig) : List Char :=
  twoDigits c.g_len.toNat ++ twoDigits c.g_gap.toNat ++ twoDigits c.g_thickness.toNat ++
    twoDigits c.g_outlineThickness.toNat ++ [if c.g_centerDot then '1' else '0'] ++ ['-'] ++
    sixHexDigits c.g_fillColor ++ ['-'] ++ sixHexDigits c.g_outlineColor

/-- The letters `a`..`f` replaced by `A`..`F`; every other character is kept. -/
def upperHexLetter (c : Char) : Char :=
  if 'a'.toNat ≤ c.toNat ∧ c.toNat ≤ 'f'.toNat then Char.ofNat (c.toNat - 32) else c

/-- The settings state `OpenSettingsWindow` sets up for a configuration: the four labels
and the code field are written from the globals. -/
def openedWindow (c : CrosshairConfig) : SettingsWindow :=
  { cfg := c
    codeInput := GetCrosshairCode c
    labelLen := labelText "Length" c.g_len
    labelThickness := labelText "Thickness" c.g_thickness
    labelOutline := labelText "Outline" c.g_outlineThickness
    labelGap := labelText "Gap" c.g_gap }

/-! ## Lemmas on the library embedding -/

theorem iswdigit_iff (c : Char) : iswdigit c = true ↔ 48 ≤ c.toNat ∧ c.toNat ≤ 57 := by
  simp [iswdigit]

theorem iswxdigit_iff (c : Char) : iswxdigit c = true ↔
    (48 ≤ c.toNat ∧ c.toNat ≤ 57) ∨ (97 ≤ c.toNat ∧ c.toNat ≤ 102) ∨
      (65 ≤ c.toNat ∧ c.toNat ≤ 70) := by
  simp [iswxdigit]

theorem iswdigit_mem (c : Char) : iswdigit c = true ↔ c ∈ "0123456789".toList := by
  constructor
  · intro h
    rw [iswdigit_iff] at h
    have hc : c = Char.ofNat c.toNat := (Char.ofNat_toNat c).symm
    generalize c.toNat = n at h hc
    obtain ⟨h1, h2⟩ := h
    subst hc
    interval_cases n <;> decide
  · intro h
    simp only [String.toList] at h
    fin_cases h <;> decide

theorem iswxdigit_mem (c : Char) :
    iswxdigit c = true ↔ c ∈ "0123456789abcdefABCDEF".toList := by
  constructor
  · intro h
    rw [iswxdigit_iff] at h
    have hc : c = Char.ofNat c.toNat := (Char.ofNat_toNat c).symm
    generalize c.toNat = n at h hc
    subst hc
    rcases h with ⟨h1, h2⟩ | ⟨h1, h2⟩ | ⟨h1, h2⟩ <;> interval_cases n <;> decide
  · intro h
    simp only [String.toList] at h
    fin_cases h <;> decide

theorem digitVal_digitChar (d : Nat) (h : d < 10) : digitVal (digitChar d) = d := by
  interval_cases d <;> decide

theorem iswdigit_digitChar (d : Nat) (h : d < 10) : iswdigit (digitChar d) = true := by
  interval_cases d <;> decide

theorem hexVal_hexChar (d : Nat) (h : d < 16) : hexVal (hexChar d) = d := by
  interval_cases d <;> decide

theorem iswxdigit_hexChar (d : Nat) (h : d < 16) : iswxdigit (hexChar d) = true := by
  interval_cases d <;> decide

theorem hexVal_lt (c : Char) (h : iswxdigit c = true) : hexVal c < 16 := by
  rw [iswxdigit_iff] at h
  unfold hexVal
  split_ifs with h1 h2
  · rw [iswdigit_iff] at h1
    simp only [Char.reduceToNat]; omega
  · rw [iswdigit_iff] at h1
    simp only [Char.reduceToNat] at h2 ⊢; omega
  · rw [iswdigit_iff] at h1
    simp only [Char.reduceToNat] at h2 ⊢; omega


theorem toDigitsAux_append (base : Nat) (digit : Nat → Char) :
    ∀ (fuel n : Nat) (acc : List Char),
      toDigitsAux base digit fuel n acc = toDigitsAux base digit fuel n [] ++ acc := by
  intro fuel
  induction fuel with
  | zero => intro n acc; simp [toDigitsAux]
  | succ f ih =>
    intro n acc
    unfold toDigitsAux
    split_ifs with h
    · simp
    · rw [ih (n / base) (digit (n % base) :: acc), ih (n / base) [digit (n % base)]]
      simp

theorem toDigitsAux_fuel (base : Nat) (digit : Nat → Char) (hb : 2 ≤ base) :
    ∀ (n fuel fuel' : Nat) (acc : List Char), n < fuel → n < fuel' →
      toDigitsAux base digit fuel n acc = toDigitsAux base digit fuel' n acc := by
  intro n
  induction n using Nat.strong_induction_on with
  | _ n ih =>
    intro fuel fuel' acc h h'
    obtain ⟨f, rfl⟩ : ∃ f, fuel = f + 1 := ⟨fuel - 1, by omega⟩
    obtain ⟨f', rfl⟩ : ∃ f, fuel' = f + 1 := ⟨fuel' - 1, by omega⟩
    unfold toDigitsAux
    split_ifs with hn
    · rfl
    · have hlt : n / base < n := Nat.div_lt_self (by omega) (by omega)
      exact ih (n / base) hlt f f' _ (by omega) (by omega)

theorem toDigits_eq (base : Nat) (digit : Nat → Char) (hb : 2 ≤ base) (n : Nat) :
    toDigits base digit n =
      if n < base then [digit n] else toDigits base digit (n / base) ++ [digit (n % base)] := by
  unfold toDigits
  split_ifs with hn
  · simp [toDigitsAux, hn]
  · have hlt : n / base < n := Nat.div_lt_self (by omega) (by omega)
    rw [toDigitsAux, if_neg hn, toDigitsAux_append,
      toDigitsAux_fuel base digit hb (n / base) n (n / base + 1) [] hlt (by omega)]

theorem fixedDigits_length (base : Nat) (digit : Nat → Char) :
    ∀ (k v : Nat), (fixedDigits base digit k v).length = k := by
  intro k
  induction k with
  | zero => intro v; rfl
  | succ k ih => intro v; simp [fixedDigits, ih]

theorem fixedDigits_zero (base : Nat) (digit : Nat → Char) (h0 : digit 0 = '0') :
    ∀ k : Nat, fixedDigits base digit k 0 = List.replicate k '0' := by
  intro k
  induction k with
  | zero => rfl
  | succ k ih =>
    simp only [fixedDigits, Nat.zero_div, Nat.zero_mod, ih, h0]
    exact (List.replicate_succ' k '0').symm

theorem toDigits_length_le (base : Nat) (digit : Nat → Char) (hb : 2 ≤ base) :
    ∀ (k v : Nat), v < base ^ (k + 1) → (toDigits base digit v).length ≤ k + 1 := by
  intro k
  induction k with
  | zero =>
    intro v hv
    rw [toDigits_eq base digit hb, if_pos (by simpa using hv)]
    simp
  | succ k ih =>
    intro v hv
    rw [toDigits_eq base digit hb]
    split_ifs with h
    · simp
    · have : v / base < base ^ (k + 1) := by
        rw [Nat.div_lt_iff_lt_mul (by omega)]
        rw [pow_succ] at hv; exact hv
      have := ih (v / base) this
      simp; omega

theorem zeroPad_toDigits (base : Nat) (digit : Nat → Char) (hb : 2 ≤ base)
    (h0 : digit 0 = '0') :
    ∀ (k v : Nat), v < base ^ (k + 1) →
      zeroPad (k + 1) (toDigits base digit v) = fixedDigits base digit (k + 1) v := by
  intro k
  induction k with
  | zero =>
    intro v hv
    have hv' : v < base := by simpa using hv
    rw [toDigits_eq base digit hb, if_pos hv']
    simp [zeroPad, fixedDigits, Nat.mod_eq_of_lt hv']
  | succ k ih =>
    intro v hv
    have hdiv : v / base < base ^ (k + 1) := by
      rw [Nat.div_lt_iff_lt_mul (by omega)]
      rw [pow_succ] at hv; exact hv
    rw [toDigits_eq base digit hb]
    split_ifs with h
    · have hz : v / base = 0 := Nat.div_eq_of_lt h
      rw [fixedDigits, hz, fixedDigits_zero base digit h0, Nat.mod_eq_of_lt h]
      simp [zeroPad]
    · have hlen := toDigits_length_le base digit hb k (v / base) hdiv
      rw [fixedDigits, ← ih (v / base) hdiv]
      simp only [zeroPad, List.length_append, List.length_singleton, List.append_assoc]
      congr 2
      omega

theorem digitChar_zero : digitChar 0 = '0' := by decide
theorem hexChar_zero : hexChar 0 = '0' := by decide

theorem fmt_d_two (n : Int) (h0 : 0 ≤ n) (h1 : n ≤ 99) :
    fmt_d 2 n = [digitChar (n.toNat / 10), digitChar (n.toNat % 10)] := by
  have hlt : n.toNat < 10 ^ (1 + 1) := by omega
  rw [fmt_d, if_neg (by omega), zeroPad_toDigits 10 digitChar (by omega) digitChar_zero 1 _ hlt]
  have : n.toNat / 10 % 10 = n.toNat / 10 := Nat.mod_eq_of_lt (by omega)
  simp [fixedDigits, this]

theorem fmt_d_bool (b : Bool) :
    fmt_d 0 (if b then 1 else 0) = [if b then '1' else '0'] := by
  cases b <;> decide

theorem fmt_X_six (v : Nat) :
    fmt_X 6 (v &&& 0xFFFFFF) =
      [hexChar (v / 1048576 % 16), hexChar (v / 65536 % 16), hexChar (v / 4096 % 16),
       hexChar (v / 256 % 16), hexChar (v / 16 % 16), hexChar (v % 16)] := by
  have hm : v &&& 0xFFFFFF = v % 2 ^ 24 := Nat.and_pow_two_sub_one_eq_mod v 24
  have hlt : v % 2 ^ 24 < 16 ^ (5 + 1) := by
    have := Nat.mod_lt v (show 0 < 2 ^ 24 by norm_num)
    norm_num at this ⊢; exact this
  rw [fmt_X, hm, zeroPad_toDigits 16 hexChar (by omega) hexChar_zero 5 _ hlt]
  simp only [fixedDigits, List.nil_append, List.cons_append, List.singleton_append,
    Nat.div_div_eq_div_mul]
  norm_num
  refine ⟨?_, ?_, ?_, ?_, ?_⟩ <;> congr 1 <;> omega


theorem iswspace_iff (c : Char) :
    iswspace c = true ↔ c.toNat = 32 ∨ (9 ≤ c.toNat ∧ c.toNat ≤ 13) := by
  simp [iswspace]

theorem not_iswspace_of_iswxdigit (c : Char) (h : iswxdigit c = true) : iswspace c = false := by
  rw [iswxdigit_iff] at h
  rw [Bool.eq_false_iff, Ne, iswspace_iff]
  omega

theorem iswxdigit_of_iswdigit (c : Char) (h : iswdigit c = true) : iswxdigit c = true := by
  rw [iswdigit_iff] at h
  rw [iswxdigit_iff]
  omega

theorem ne_of_iswxdigit (c : Char) (h : iswxdigit c = true) :
    c ≠ '-' ∧ c ≠ '+' ∧ c ≠ 'x' ∧ c ≠ 'X' := by
  refine ⟨?_, ?_, ?_, ?_⟩ <;> rintro rfl <;> revert h <;> decide

theorem scan_d_two (c d : Char) (rest : List Char) (hc : iswdigit c = true)
    (hd : iswdigit d = true) :
    scan_d (some 2) (c :: d :: rest) = some (((digitVal c * 10 + digitVal d : Nat) : Int), rest) := by
  have hs := not_iswspace_of_iswxdigit c (iswxdigit_of_iswdigit c hc)
  obtain ⟨h1, h2, -, -⟩ := ne_of_iswxdigit c (iswxdigit_of_iswdigit c hc)
  simp [scan_d, List.dropWhile, hs, readSign, h1, h2, hc, hd, readDigits]

theorem scan_d_one (c : Char) (rest : List Char) (hc : iswdigit c = true) :
    scan_d none (c :: '-' :: rest) = some ((digitVal c : Int), '-' :: rest) := by
  have hs := not_iswspace_of_iswxdigit c (iswxdigit_of_iswdigit c hc)
  obtain ⟨h1, h2, -, -⟩ := ne_of_iswxdigit c (iswxdigit_of_iswdigit c hc)
  have hm : iswdigit '-' = false := by decide
  simp [scan_d, List.dropWhile, hs, readSign, h1, h2, hc, readDigits, hm]

theorem scan_X_six (c0 c1 c2 c3 c4 c5 : Char) (rest : List Char)
    (h0 : iswxdigit c0 = true) (h1 : iswxdigit c1 = true) (h2 : iswxdigit c2 = true)
    (h3 : iswxdigit c3 = true) (h4 : iswxdigit c4 = true) (h5 : iswxdigit c5 = true) :
    scan_X (some 6) (c0 :: c1 :: c2 :: c3 :: c4 :: c5 :: rest) =
      some (((((hexVal c0 * 16 + hexVal c1) * 16 + hexVal c2) * 16 + hexVal c3) * 16
        + hexVal c4) * 16 + hexVal c5, rest) := by
  have hs := not_iswspace_of_iswxdigit c0 h0
  obtain ⟨n1, n2, -, -⟩ := ne_of_iswxdigit c0 h0
  obtain ⟨-, -, n3, n4⟩ := ne_of_iswxdigit c1 h1
  have b0 := hexVal_lt c0 h0
  have b1 := hexVal_lt c1 h1
  have b2 := hexVal_lt c2 h2
  have b3 := hexVal_lt c3 h3
  have b4 := hexVal_lt c4 h4
  have b5 := hexVal_lt c5 h5
  simp [scan_X, List.dropWhile, hs, readSign, n1, n2, n3, n4, readHexMark, h0, h1, h2, h3, h4,
    h5, readDigits]
  omega



theorem LoadCrosshairCode_chars (u : ScanLocals)
    (c0 c1 c2 c3 c4 c5 c6 c7 c8 c10 c11 c12 c13 c14 c15 c17 c18 c19 c20 c21 c22 : Char)
    (d0 : iswdigit c0 = true) (d1 : iswdigit c1 = true) (d2 : iswdigit c2 = true)
    (d3 : iswdigit c3 = true) (d4 : iswdigit c4 = true) (d5 : iswdigit c5 = true)
    (d6 : iswdigit c6 = true) (d7 : iswdigit c7 = true) (d8 : iswdigit c8 = true)
    (x10 : iswxdigit c10 = true) (x11 : iswxdigit c11 = true) (x12 : iswxdigit c12 = true)
    (x13 : iswxdigit c13 = true) (x14 : iswxdigit c14 = true) (x15 : iswxdigit c15 = true)
    (x17 : iswxdigit c17 = true) (x18 : iswxdigit c18 = true) (x19 : iswxdigit c19 = true)
    (x20 : iswxdigit c20 = true) (x21 : iswxdigit c21 = true) (x22 : iswxdigit c22 = true) :
    LoadCrosshairCode u [c0, c1, c2, c3, c4, c5, c6, c7, c8, '-', c10, c11, c12, c13, c14, c15,
        '-', c17, c18, c19, c20, c21, c22] =
      { g_len := (digitVal c0 * 10 + digitVal c1 : Nat)
        g_gap := (digitVal c2 * 10 + digitVal c3 : Nat)
        g_thickness := (digitVal c4 * 10 + digitVal c5 : Nat)
        g_outlineThickness := (digitVal c6 * 10 + digitVal c7 : Nat)
        g_centerDot := decide (digitVal c8 ≠ 0)
        g_fillColor := ((((hexVal c10 * 16 + hexVal c11) * 16 + hexVal c12) * 16 + hexVal c13) * 16
          + hexVal c14) * 16 + hexVal c15
        g_outlineColor := ((((hexVal c17 * 16 + hexVal c18) * 16 + hexVal c19) * 16
          + hexVal c20) * 16 + hexVal c21) * 16 + hexVal c22 } := by
  simp only [LoadCrosshairCode, codeFormat, swscanf_s, scan_d_two _ _ _ d0 d1,
    scan_d_two _ _ _ d2 d3, scan_d_two _ _ _ d4 d5, scan_d_two _ _ _ d6 d7,
    scan_d_one _ _ d8, scan_X_six _ _ _ _ _ _ _ x10 x11 x12 x13 x14 x15,
    scan_X_six _ _ _ _ _ _ _ x17 x18 x19 x20 x21 x22, if_true]
  simp
  constructor <;> omega

theorem length_eq_23 (s : List Char) (h : s.length = 23) :
    ∃ c0 c1 c2 c3 c4 c5 c6 c7 c8 c9 c10 c11 c12 c13 c14 c15 c16 c17 c18 c19 c20 c21 c22,
      s = [c0, c1, c2, c3, c4, c5, c6, c7, c8, c9, c10, c11, c12, c13, c14, c15, c16, c17, c18,
        c19, c20, c21, c22] := by
  match s, h with
  | [c0, c1, c2, c3, c4, c5, c6, c7, c8, c9, c10, c11, c12, c13, c14, c15, c16, c17, c18, c19,
      c20, c21, c22], _ =>
    exact ⟨c0, c1, c2, c3, c4, c5, c6, c7, c8, c9, c10, c11, c12, c13, c14, c15, c16, c17, c18,
      c19, c20, c21, c22, rfl⟩

theorem any_range' (p : Nat → Bool) (a n : Nat) :
    (List.range' a n).any p = true ↔ ∃ i, a ≤ i ∧ i < a + n ∧ p i = true := by
  simp [List.any_eq_true, List.mem_range'_1, and_assoc]

theorem any_range'_false (p : Nat → Bool) (a n : Nat) :
    (List.range' a n).any (fun i => !p i) = false ↔ ∀ i, a ≤ i → i < a + n → p i = true := by
  rw [Bool.eq_false_iff, Ne, any_range']
  simp

theorem IsValidCrosshairCode_raw (s : List Char) :
    IsValidCrosshairCode s = true ↔
      s.length = 23 ∧ (charAt s 9 = '-' ∧ charAt s 16 = '-') ∧
      (List.range' 0 9).any (fun i => !iswdigit (charAt s i)) = false ∧
      (charAt s 8 = '0' ∨ charAt s 8 = '1') ∧
      (List.range' 10 6).any (fun i => !iswxdigit (charAt s i)) = false ∧
      (List.range' 17 6).any (fun i => !iswxdigit (charAt s i)) = false := by
  unfold IsValidCrosshairCode
  split_ifs with h1 h2 h3 h4 h5 h6
  · simp only [Bool.false_eq_true, false_iff]; tauto
  · simp only [Bool.false_eq_true, false_iff]; tauto
  · simp only [Bool.false_eq_true, false_iff, h3]; tauto
  · simp only [Bool.false_eq_true, false_iff]; tauto
  · simp only [Bool.false_eq_true, false_iff, h5]; tauto
  · simp only [Bool.false_eq_true, false_iff, h6]; tauto
  · rw [Bool.not_eq_true] at h3 h5 h6
    simp only [true_iff]
    refine ⟨by tauto, by tauto, h3, by tauto, h5, h6⟩

theorem IsValidCrosshairCode_iff_aux (s : List Char) :
    IsValidCrosshairCode s = true ↔
      s.length = 23 ∧ charAt s 9 = '-' ∧ charAt s 16 = '-' ∧
      (∀ i, i < 9 → iswdigit (charAt s i) = true) ∧
      (charAt s 8 = '0' ∨ charAt s 8 = '1') ∧
      (∀ i, 10 ≤ i → i < 16 → iswxdigit (charAt s i) = true) ∧
      (∀ i, 17 ≤ i → i < 23 → iswxdigit (charAt s i) = true) := by
  rw [IsValidCrosshairCode_raw, any_range'_false, any_range'_false, any_range'_false]
  simp only [Nat.zero_le, true_implies, Nat.zero_add, and_assoc]


theorem GetCrosshairCode_eq_codeLayout (c : CrosshairConfig)
    (h1 : 0 ≤ c.g_len ∧ c.g_len ≤ 99) (h2 : 0 ≤ c.g_gap ∧ c.g_gap ≤ 99)
    (h3 : 0 ≤ c.g_thickness ∧ c.g_thickness ≤ 99)
    (h4 : 0 ≤ c.g_outlineThickness ∧ c.g_outlineThickness ≤ 99) :
    GetCrosshairCode c = codeLayout c := by
  unfold GetCrosshairCode codeLayout
  rw [fmt_d_two _ h1.1 h1.2, fmt_d_two _ h2.1 h2.2, fmt_d_two _ h3.1 h3.2,
    fmt_d_two _ h4.1 h4.2, fmt_d_bool, fmt_X_six, fmt_X_six]
  simp [twoDigits, sixHexDigits]

theorem codeLayout_valid (c : CrosshairConfig)
    (h1 : 0 ≤ c.g_len ∧ c.g_len ≤ 99) (h2 : 0 ≤ c.g_gap ∧ c.g_gap ≤ 99)
    (h3 : 0 ≤ c.g_thickness ∧ c.g_thickness ≤ 99)
    (h4 : 0 ≤ c.g_outlineThickness ∧ c.g_outlineThickness ≤ 99) :
    IsValidCrosshairCode (codeLayout c) = true := by
  have hd : ∀ n : Nat, iswdigit (digitChar (n % 10)) = true :=
    fun n => iswdigit_digitChar _ (Nat.mod_lt _ (by norm_num))
  have hd' : ∀ n : Int, 0 ≤ n ∧ n ≤ 99 → iswdigit (digitChar (n.toNat / 10)) = true :=
    fun n hn => iswdigit_digitChar _ (by omega)
  have hx : ∀ n : Nat, iswxdigit (hexChar (n % 16)) = true :=
    fun n => iswxdigit_hexChar _ (Nat.mod_lt _ (by norm_num))
  have hb : iswdigit (if c.g_centerDot then '1' else '0') = true := by
    cases c.g_centerDot <;> decide
  rw [IsValidCrosshairCode_iff_aux]
  refine ⟨by simp [codeLayout, twoDigits, sixHexDigits], by simp [codeLayout, twoDigits, sixHexDigits, charAt],
    by simp [codeLayout, twoDigits, sixHexDigits, charAt], ?_, ?_, ?_, ?_⟩
  · intro i hi
    interval_cases i <;>
      simp [codeLayout, twoDigits, sixHexDigits, charAt, hd, hd' _ h1, hd' _ h2, hd' _ h3,
        hd' _ h4, hb]
  · cases c.g_centerDot <;> simp [codeLayout, twoDigits, sixHexDigits, charAt]
  · intro i hi1 hi2
    interval_cases i <;> simp [codeLayout, twoDigits, sixHexDigits, charAt, hx]
  · intro i hi1 hi2
    interval_cases i <;> simp [codeLayout, twoDigits, sixHexDigits, charAt, hx]

theorem LoadCrosshairCode_codeLayout (u : ScanLocals) (c : CrosshairConfig)
    (h1 : 0 ≤ c.g_len ∧ c.g_len ≤ 99) (h2 : 0 ≤ c.g_gap ∧ c.g_gap ≤ 99)
    (h3 : 0 ≤ c.g_thickness ∧ c.g_thickness ≤ 99)
    (h4 : 0 ≤ c.g_outlineThickness ∧ c.g_outlineThickness ≤ 99)
    (h5 : c.g_fillColor < 2 ^ 24) (h6 : c.g_outlineColor < 2 ^ 24) :
    LoadCrosshairCode u (codeLayout c) = c := by
  have hd : ∀ n : Nat, iswdigit (digitChar (n % 10)) = true :=
    fun n => iswdigit_digitChar _ (Nat.mod_lt _ (by norm_num))
  have hd' : ∀ n : Int, 0 ≤ n ∧ n ≤ 99 → iswdigit (digitChar (n.toNat / 10)) = true :=
    fun n hn => iswdigit_digitChar _ (by omega)
  have hx : ∀ n : Nat, iswxdigit (hexChar (n % 16)) = true :=
    fun n => iswxdigit_hexChar _ (Nat.mod_lt _ (by norm_num))
  have hb : iswdigit (if c.g_centerDot then '1' else '0') = true := by
    cases c.g_centerDot <;> decide
  have hv : ∀ n : Nat, digitVal (digitChar (n % 10)) = n % 10 :=
    fun n => digitVal_digitChar _ (Nat.mod_lt _ (by norm_num))
  have hv' : ∀ n : Int, 0 ≤ n ∧ n ≤ 99 → digitVal (digitChar (n.toNat / 10)) = n.toNat / 10 :=
    fun n hn => digitVal_digitChar _ (by omega)
  have hxv : ∀ n : Nat, hexVal (hexChar (n % 16)) = n % 16 :=
    fun n => hexVal_hexChar _ (Nat.mod_lt _ (by norm_num))
  have e : codeLayout c = [digitChar (c.g_len.toNat / 10), digitChar (c.g_len.toNat % 10),
      digitChar (c.g_gap.toNat / 10), digitChar (c.g_gap.toNat % 10),
      digitChar (c.g_thickness.toNat / 10), digitChar (c.g_thickness.toNat % 10),
      digitChar (c.g_outlineThickness.toNat / 10), digitChar (c.g_outlineThickness.toNat % 10),
      (if c.g_centerDot then '1' else '0'), '-',
      hexChar (c.g_fillColor / 16 ^ 5 % 16), hexChar (c.g_fillColor / 16 ^ 4 % 16),
      hexChar (c.g_fillColor / 16 ^ 3 % 16), hexChar (c.g_fillColor / 16 ^ 2 % 16),
      hexChar (c.g_fillColor / 16 % 16), hexChar (c.g_fillColor % 16), '-',
      hexChar (c.g_outlineColor / 16 ^ 5 % 16), hexChar (c.g_outlineColor / 16 ^ 4 % 16),
      hexChar (c.g_outlineColor / 16 ^ 3 % 16), hexChar (c.g_outlineColor / 16 ^ 2 % 16),
      hexChar (c.g_outlineColor / 16 % 16), hexChar (c.g_outlineColor % 16)] := by
    simp [codeLayout, twoDigits, sixHexDigits]
  rw [e, LoadCrosshairCode_chars u _ _ _ _ _ _ _ _ _ _ _ _ _ _ _ _ _ _ _ _ _
    (hd' _ h1) (hd _) (hd' _ h2) (hd _) (hd' _ h3) (hd _) (hd' _ h4) (hd _) hb
    (hx _) (hx _) (hx _) (hx _) (hx _) (hx _) (hx _) (hx _) (hx _) (hx _) (hx _) (hx _)]
  obtain ⟨len, gap, thick, outl, dot, fill, outlc⟩ := c
  simp only [hv, hv' _ h1, hv' _ h2, hv' _ h3, hv' _ h4, hxv] at *
  simp only [CrosshairConfig.mk.injEq]
  refine ⟨by omega, by omega, by omega, by omega, ?_, by omega, by omega⟩
  cases dot <;> simp [digitVal]


theorem isValid_take_255 (s : List Char) :
    IsValidCrosshairCode (GetWindowText s) = IsValidCrosshairCode s ∧
      (IsValidCrosshairCode s = true → GetWindowText s = s) := by
  by_cases h : s.length ≤ 255
  · have e : GetWindowText s = s := List.take_of_length_le h
    rw [e]; exact ⟨rfl, fun _ => rfl⟩
  · have h1 : IsValidCrosshairCode s = false := by
      unfold IsValidCrosshairCode
      rw [if_pos (by omega)]
    have h2 : IsValidCrosshairCode (GetWindowText s) = false := by
      unfold IsValidCrosshairCode GetWindowText
      rw [if_pos (by rw [List.length_take]; omega)]
    rw [h1, h2]
    exact ⟨rfl, fun h => absurd h (by simp)⟩

theorem LoadCrosshairCode_valid (u : ScanLocals) (s : List Char)
    (h : IsValidCrosshairCode s = true) :
    LoadCrosshairCode u s =
      { g_len := (decimalValue (substr s 0 2) : Nat)
        g_gap := (decimalValue (substr s 2 2) : Nat)
        g_thickness := (decimalValue (substr s 4 2) : Nat)
        g_outlineThickness := (decimalValue (substr s 6 2) : Nat)
        g_centerDot := decide (charAt s 8 = '1')
        g_fillColor := hexValue (substr s 10 6)
        g_outlineColor := hexValue (substr s 17 6) } := by
  rw [IsValidCrosshairCode_iff_aux] at h
  obtain ⟨hlen, h9, h16, hd, h8, hx1, hx2⟩ := h
  obtain ⟨c0, c1, c2, c3, c4, c5, c6, c7, c8, c9, c10, c11, c12, c13, c14, c15, c16, c17, c18,
    c19, c20, c21, c22, rfl⟩ := length_eq_23 s hlen
  have d0 := hd 0 (by omega)
  have d1 := hd 1 (by omega)
  have d2 := hd 2 (by omega)
  have d3 := hd 3 (by omega)
  have d4 := hd 4 (by omega)
  have d5 := hd 5 (by omega)
  have d6 := hd 6 (by omega)
  have d7 := hd 7 (by omega)
  have d8 := hd 8 (by omega)
  have x10 := hx1 10 (by omega) (by omega)
  have x11 := hx1 11 (by omega) (by omega)
  have x12 := hx1 12 (by omega) (by omega)
  have x13 := hx1 13 (by omega) (by omega)
  have x14 := hx1 14 (by omega) (by omega)
  have x15 := hx1 15 (by omega) (by omega)
  have x17 := hx2 17 (by omega) (by omega)
  have x18 := hx2 18 (by omega) (by omega)
  have x19 := hx2 19 (by omega) (by omega)
  have x20 := hx2 20 (by omega) (by omega)
  have x21 := hx2 21 (by omega) (by omega)
  have x22 := hx2 22 (by omega) (by omega)
  simp only [charAt, List.getD_cons_succ, List.getD_cons_zero] at h9 h16 h8 d0 d1 d2 d3 d4 d5
  simp only [charAt, List.getD_cons_succ, List.getD_cons_zero] at d6 d7 d8 x10 x11 x12 x13 x14
  simp only [charAt, List.getD_cons_succ, List.getD_cons_zero] at x15 x17 x18 x19 x20 x21 x22
  subst h9 h16
  rw [LoadCrosshairCode_chars u _ _ _ _ _ _ _ _ _ _ _ _ _ _ _ _ _ _ _ _ _
    d0 d1 d2 d3 d4 d5 d6 d7 d8 x10 x11 x12 x13 x14 x15 x17 x18 x19 x20 x21 x22]
  simp only [decimalValue, hexValue, substr, charAt, List.drop, List.take, List.foldl,
    List.getD_cons_succ, List.getD_cons_zero, Nat.zero_mul, Nat.zero_add,
    CrosshairConfig.mk.injEq, true_and, and_true]
  rcases h8 with rfl | rfl <;> simp [digitVal]

theorem digitChar_digitVal (c : Char) (h : iswdigit c = true) : digitChar (digitVal c) = c := by
  rw [iswdigit_iff] at h
  have hc : c = Char.ofNat c.toNat := (Char.ofNat_toNat c).symm
  generalize c.toNat = n at h hc
  obtain ⟨h1, h2⟩ := h
  subst hc
  interval_cases n <;> decide

theorem digitVal_le (c : Char) (h : iswdigit c = true) : digitVal c ≤ 9 := by
  rw [iswdigit_iff] at h
  simp only [digitVal, Char.reduceToNat]
  omega

theorem hexChar_hexVal (c : Char) (h : iswxdigit c = true) :
    hexChar (hexVal c) = upperHexLetter c := by
  rw [iswxdigit_iff] at h
  have hc : c = Char.ofNat c.toNat := (Char.ofNat_toNat c).symm
  generalize c.toNat = n at h hc
  subst hc
  rcases h with ⟨h1, h2⟩ | ⟨h1, h2⟩ | ⟨h1, h2⟩ <;> interval_cases n <;> decide

theorem upperHexLetter_of_iswdigit (c : Char) (h : iswdigit c = true) :
    upperHexLetter c = c := by
  rw [iswdigit_iff] at h
  unfold upperHexLetter
  rw [if_neg]
  simp only [Char.reduceToNat]
  omega

theorem upperHexLetter_of_not_mem (c : Char) (h : c ∉ "abcdef".toList) :
    upperHexLetter c = c := by
  unfold upperHexLetter
  rw [if_neg]
  rintro ⟨h1, h2⟩
  apply h
  have hc : c = Char.ofNat c.toNat := (Char.ofNat_toNat c).symm
  simp only [Char.reduceToNat] at h1 h2
  generalize c.toNat = n at h1 h2 hc
  subst hc
  interval_cases n <;> decide


theorem twoDigits_digitVal (c d : Char) (hc : iswdigit c = true) (hd : iswdigit d = true) :
    twoDigits (((digitVal c * 10 + digitVal d : Nat) : Int).toNat) = [c, d] := by
  have bc := digitVal_le c hc
  have bd := digitVal_le d hd
  have e1 : (digitVal c * 10 + digitVal d) / 10 = digitVal c := by omega
  have e2 : (digitVal c * 10 + digitVal d) % 10 = digitVal d := by omega
  rw [Int.toNat_ofNat, twoDigits, e1, e2, digitChar_digitVal c hc, digitChar_digitVal d hd]

theorem sixHexDigits_hexVal (c0 c1 c2 c3 c4 c5 : Char)
    (h0 : iswxdigit c0 = true) (h1 : iswxdigit c1 = true) (h2 : iswxdigit c2 = true)
    (h3 : iswxdigit c3 = true) (h4 : iswxdigit c4 = true) (h5 : iswxdigit c5 = true) :
    sixHexDigits (((((hexVal c0 * 16 + hexVal c1) * 16 + hexVal c2) * 16 + hexVal c3) * 16
        + hexVal c4) * 16 + hexVal c5) =
      [upperHexLetter c0, upperHexLetter c1, upperHexLetter c2, upperHexLetter c3,
       upperHexLetter c4, upperHexLetter c5] := by
  have b0 := hexVal_lt c0 h0
  have b1 := hexVal_lt c1 h1
  have b2 := hexVal_lt c2 h2
  have b3 := hexVal_lt c3 h3
  have b4 := hexVal_lt c4 h4
  have b5 := hexVal_lt c5 h5
  rw [← hexChar_hexVal c0 h0, ← hexChar_hexVal c1 h1, ← hexChar_hexVal c2 h2,
    ← hexChar_hexVal c3 h3, ← hexChar_hexVal c4 h4, ← hexChar_hexVal c5 h5]
  generalize hexVal c0 = a0 at *
  generalize hexVal c1 = a1 at *
  generalize hexVal c2 = a2 at *
  generalize hexVal c3 = a3 at *
  generalize hexVal c4 = a4 at *
  generalize hexVal c5 = a5 at *
  unfold sixHexDigits
  norm_num
  refine ⟨?_, ?_, ?_, ?_, ?_, ?_⟩ <;> congr 1 <;> omega

theorem GetCrosshairCode_LoadCrosshairCode_valid (u : ScanLocals) (s : List Char)
    (h : IsValidCrosshairCode s = true) :
    GetCrosshairCode (LoadCrosshairCode u s) = s.map upperHexLetter := by
  rw [IsValidCrosshairCode_iff_aux] at h
  obtain ⟨hlen, h9, h16, hd, h8, hx1, hx2⟩ := h
  obtain ⟨c0, c1, c2, c3, c4, c5, c6, c7, c8, c9, c10, c11, c12, c13, c14, c15, c16, c17, c18,
    c19, c20, c21, c22, rfl⟩ := length_eq_23 s hlen
  have d0 := hd 0 (by omega)
  have d1 := hd 1 (by omega)
  have d2 := hd 2 (by omega)
  have d3 := hd 3 (by omega)
  have d4 := hd 4 (by omega)
  have d5 := hd 5 (by omega)
  have d6 := hd 6 (by omega)
  have d7 := hd 7 (by omega)
  have d8 := hd 8 (by omega)
  have x10 := hx1 10 (by omega) (by omega)
  have x11 := hx1 11 (by omega) (by omega)
  have x12 := hx1 12 (by omega) (by omega)
  have x13 := hx1 13 (by omega) (by omega)
  have x14 := hx1 14 (by omega) (by omega)
  have x15 := hx1 15 (by omega) (by omega)
  have x17 := hx2 17 (by omega) (by omega)
  have x18 := hx2 18 (by omega) (by omega)
  have x19 := hx2 19 (by omega) (by omega)
  have x20 := hx2 20 (by omega) (by omega)
  have x21 := hx2 21 (by omega) (by omega)
  have x22 := hx2 22 (by omega) (by omega)
  simp only [charAt, List.getD_cons_succ, List.getD_cons_zero] at h9 h16 h8 d0 d1 d2 d3 d4 d5
  simp only [charAt, List.getD_cons_succ, List.getD_cons_zero] at d6 d7 d8 x10 x11 x12 x13 x14
  simp only [charAt, List.getD_cons_succ, List.getD_cons_zero] at x15 x17 x18 x19 x20 x21 x22
  subst h9 h16
  have b0 := digitVal_le c0 d0
  have b1 := digitVal_le c1 d1
  have b2 := digitVal_le c2 d2
  have b3 := digitVal_le c3 d3
  have b4 := digitVal_le c4 d4
  have b5 := digitVal_le c5 d5
  have b6 := digitVal_le c6 d6
  have b7 := digitVal_le c7 d7
  have hm : upperHexLetter '-' = '-' := by decide
  have hdot : (if decide (digitVal c8 ≠ 0) = true then '1' else '0') = c8 := by
    rcases h8 with rfl | rfl <;> simp [digitVal]
  rw [LoadCrosshairCode_chars u _ _ _ _ _ _ _ _ _ _ _ _ _ _ _ _ _ _ _ _ _
    d0 d1 d2 d3 d4 d5 d6 d7 d8 x10 x11 x12 x13 x14 x15 x17 x18 x19 x20 x21 x22,
    GetCrosshairCode_eq_codeLayout _ (by constructor <;> (simp only; omega))
      (by constructor <;> (simp only; omega)) (by constructor <;> (simp only; omega))
      (by constructor <;> (simp only; omega))]
  simp only [codeLayout, twoDigits_digitVal _ _ d0 d1, twoDigits_digitVal _ _ d2 d3,
    twoDigits_digitVal _ _ d4 d5, twoDigits_digitVal _ _ d6 d7,
    sixHexDigits_hexVal _ _ _ _ _ _ x10 x11 x12 x13 x14 x15,
    sixHexDigits_hexVal _ _ _ _ _ _ x17 x18 x19 x20 x21 x22, hdot, List.map, hm,
    upperHexLetter_of_iswdigit _ d0, upperHexLetter_of_iswdigit _ d1,
    upperHexLetter_of_iswdigit _ d2, upperHexLetter_of_iswdigit _ d3,
    upperHexLetter_of_iswdigit _ d4, upperHexLetter_of_iswdigit _ d5,
    upperHexLetter_of_iswdigit _ d6, upperHexLetter_of_iswdigit _ d7,
    upperHexLetter_of_iswdigit _ d8, List.cons_append, List.nil_append]

/-! ## The codec -/

/-- C1: for every configuration with armLength in [2,50], gap in [0,50], thickness in [1,20],
outlineThickness in [0,10], any centerDot and 24-bit colours, `LoadCrosshairCode` applied to
the string produced by `GetCrosshairCode` gives back the configuration in all seven fields,
whatever the locals held before the scan. -/
theorem decode_encode_roundtrip (c : CrosshairConfig) (uninit : ScanLocals)
    (hlen : 2 ≤ c.g_len ∧ c.g_len ≤ 50) (hgap : 0 ≤ c.g_gap ∧ c.g_gap ≤ 50)
    (hthick : 1 ≤ c.g_thickness ∧ c.g_thickness ≤ 20)
    (hout : 0 ≤ c.g_outlineThickness ∧ c.g_outlineThickness ≤ 10)
    (hfill : c.g_fillColor < 2 ^ 24) (houtc : c.g_outlineColor < 2 ^ 24) :
    LoadCrosshairCode uninit (GetCrosshairCode c) = c := by
  have h1 : 0 ≤ c.g_len ∧ c.g_len ≤ 99 := by omega
  have h2 : 0 ≤ c.g_gap ∧ c.g_gap ≤ 99 := by omega
  have h3 : 0 ≤ c.g_thickness ∧ c.g_thickness ≤ 99 := by omega
  have h4 : 0 ≤ c.g_outlineThickness ∧ c.g_outlineThickness ≤ 99 := by omega
  rw [GetCrosshairCode_eq_codeLayout c h1 h2 h3 h4]
  exact LoadCrosshairCode_codeLayout uninit c h1 h2 h3 h4 hfill houtc

theorem decode_encode_roundtrip_witness :
    LoadCrosshairCode ⟨-1, -1, -1, -1, -1, 0, 0⟩
        (GetCrosshairCode ⟨7, 1, 2, 1, true, 0x00FFFF, 0x010000⟩) =
      ⟨7, 1, 2, 1, true, 0x00FFFF, 0x010000⟩ :=
  decode_encode_roundtrip ⟨7, 1, 2, 1, true, 0x00FFFF, 0x010000⟩ ⟨-1, -1, -1, -1, -1, 0, 0⟩
    (by decide) (by decide) (by decide) (by decide) (by decide) (by decide)

/-- C2: `IsValidCrosshairCode s` is true exactly when `s` has 23 characters, `s[9]` and
`s[16]` are `-`, `s[0..8]` are decimal digits, `s[8]` is `0` or `1`, and `s[10..15]` and
`s[17..22]` are hexadecimal digits; so it is false for every length other than 23 and false
when `s[8]` is `2`. -/
theorem validate_characterisation (s : List Char) :
    (IsValidCrosshairCode s = true ↔
      s.length = 23 ∧ charAt s 9 = '-' ∧ charAt s 16 = '-' ∧
      (∀ i, i ≤ 8 → charAt s i ∈ "0123456789".toList) ∧
      (charAt s 8 = '0' ∨ charAt s 8 = '1') ∧
      (∀ i, 10 ≤ i → i ≤ 15 → charAt s i ∈ "0123456789abcdefABCDEF".toList) ∧
      (∀ i, 17 ≤ i → i ≤ 22 → charAt s i ∈ "0123456789abcdefABCDEF".toList)) ∧
    (s.length ≠ 23 → IsValidCrosshairCode s = false) ∧
    (charAt s 8 = '2' → IsValidCrosshairCode s = false) := by
  have key := IsValidCrosshairCode_iff_aux s
  refine ⟨?_, ?_, ?_⟩
  · rw [key]
    simp only [← iswdigit_mem, ← iswxdigit_mem, Nat.lt_succ_iff]
  · intro h
    rw [Bool.eq_false_iff, Ne, key]
    exact fun h' => h h'.1
  · intro h
    rw [Bool.eq_false_iff, Ne, key, h]
    rintro ⟨-, -, -, -, h0 | h1, -⟩
    · exact absurd h0 (by decide)
    · exact absurd h1 (by decide)

theorem validate_characterisation_witness :
    IsValidCrosshairCode "0701150000-0000FF-00FF00".toList = false ∧
      IsValidCrosshairCode "070115002-0000FF-00FF00".toList = false :=
  ⟨(validate_characterisation "0701150000-0000FF-00FF00".toList).2.1 (by decide),
   (validate_characterisation "070115002-0000FF-00FF00".toList).2.2 (by decide)⟩

/-- C3: for every code that passes `IsValidCrosshairCode`, `LoadCrosshairCode` sets armLength,
gap, thickness and outlineThickness to the decimal values of characters 0-1, 2-3, 4-5 and
6-7, centerDot to (character 8 is `1`), fillColor and outlineColor to the hexadecimal values
of characters 10-15 and 17-22; and `070115000-0000FF-00FF00` passes the validation and
decodes to 7, 1, 15, 0, false, 0x0000FF, 0x00FF00. -/
theorem decode_positional :
    (∀ (code : List Char) (uninit : ScanLocals), IsValidCrosshairCode code = true →
      LoadCrosshairCode uninit code =
        { g_len := (decimalValue (substr code 0 2) : Nat)
          g_gap := (decimalValue (substr code 2 2) : Nat)
          g_thickness := (decimalValue (substr code 4 2) : Nat)
          g_outlineThickness := (decimalValue (substr code 6 2) : Nat)
          g_centerDot := decide (charAt code 8 = '1')
          g_fillColor := hexValue (substr code 10 6)
          g_outlineColor := hexValue (substr code 17 6) }) ∧
    IsValidCrosshairCode "070115000-0000FF-00FF00".toList = true ∧
    (∀ uninit : ScanLocals, LoadCrosshairCode uninit "070115000-0000FF-00FF00".toList =
      { g_len := 7, g_gap := 1, g_thickness := 15, g_outlineThickness := 0,
        g_centerDot := false, g_fillColor := 0x0000FF, g_outlineColor := 0x00FF00 }) := by
  refine ⟨fun code uninit h => LoadCrosshairCode_valid uninit code h, by decide, ?_⟩
  intro uninit
  rw [LoadCrosshairCode_valid uninit _ (by decide)]
  decide

theorem decode_positional_witness :
    LoadCrosshairCode ⟨-1, -1, -1, -1, -1, 0, 0⟩ "501020101-abcDEF-012345".toList =
      { g_len := 50, g_gap := 10, g_thickness := 20, g_outlineThickness := 10,
        g_centerDot := true, g_fillColor := 0xABCDEF, g_outlineColor := 0x012345 } :=
  (decode_positional.1 "501020101-abcDEF-012345".toList ⟨-1, -1, -1, -1, -1, 0, 0⟩
    (by decide)).trans (by decide)

/-- C5 (as amended): for every configuration whose armLength, gap, thickness and
outlineThickness lie in [0,99], `GetCrosshairCode` produces exactly 23 characters, in the
layout `LLGGTTOOD-FFFFFF-OOOOOO` with the colours reduced to their low 24 bits. -/
theorem encode_layout_in_width (c : CrosshairConfig)
    (hlen : 0 ≤ c.g_len ∧ c.g_len ≤ 99) (hgap : 0 ≤ c.g_gap ∧ c.g_gap ≤ 99)
    (hthick : 0 ≤ c.g_thickness ∧ c.g_thickness ≤ 99)
    (hout : 0 ≤ c.g_outlineThickness ∧ c.g_outlineThickness ≤ 99) :
    (GetCrosshairCode c).length = 23 ∧ GetCrosshairCode c = codeLayout c := by
  rw [GetCrosshairCode_eq_codeLayout c hlen hgap hthick hout]
  exact ⟨by simp [codeLayout, twoDigits, sixHexDigits], rfl⟩

theorem encode_layout_in_width_witness :
    (GetCrosshairCode ⟨99, 0, 20, 10, true, 0xFFFFFFFF, 0⟩).length = 23 ∧
      GetCrosshairCode ⟨99, 0, 20, 10, true, 0xFFFFFFFF, 0⟩ =
        codeLayout ⟨99, 0, 20, 10, true, 0xFFFFFFFF, 0⟩ :=
  encode_layout_in_width ⟨99, 0, 20, 10, true, 0xFFFFFFFF, 0⟩
    (by decide) (by decide) (by decide) (by decide)

/-- C5 (counterexample): with armLength 100 the code has 24 characters, and with armLength -5
the 23 characters start with a minus sign, so neither is in the layout. -/
theorem encode_overflows_width :
    GetCrosshairCode ⟨100, 1, 2, 1, false, 0x00FFFF, 0x010000⟩ =
        "1000102010-00FFFF-010000".toList ∧
      (GetCrosshairCode ⟨100, 1, 2, 1, false, 0x00FFFF, 0x010000⟩).length = 24 ∧
      GetCrosshairCode ⟨-5, 1, 2, 1, false, 0x00FFFF, 0x010000⟩ =
        "-50102010-00FFFF-010000".toList ∧
      IsValidCrosshairCode (GetCrosshairCode ⟨-5, 1, 2, 1, false, 0x00FFFF, 0x010000⟩) =
        false := by
  decide

/-- C10: for every configuration with armLength in [2,50], gap in [0,50], thickness in
[1,20], outlineThickness in [0,10], any centerDot and any colour values, the string returned
by `GetCrosshairCode` passes `IsValidCrosshairCode`. -/
theorem encode_passes_validate (c : CrosshairConfig)
    (hlen : 2 ≤ c.g_len ∧ c.g_len ≤ 50) (hgap : 0 ≤ c.g_gap ∧ c.g_gap ≤ 50)
    (hthick : 1 ≤ c.g_thickness ∧ c.g_thickness ≤ 20)
    (hout : 0 ≤ c.g_outlineThickness ∧ c.g_outlineThickness ≤ 10) :
    IsValidCrosshairCode (GetCrosshairCode c) = true := by
  have h1 : 0 ≤ c.g_len ∧ c.g_len ≤ 99 := by omega
  have h2 : 0 ≤ c.g_gap ∧ c.g_gap ≤ 99 := by omega
  have h3 : 0 ≤ c.g_thickness ∧ c.g_thickness ≤ 99 := by omega
  have h4 : 0 ≤ c.g_outlineThickness ∧ c.g_outlineThickness ≤ 99 := by omega
  rw [GetCrosshairCode_eq_codeLayout c h1 h2 h3 h4]
  exact codeLayout_valid c h1 h2 h3 h4

theorem encode_passes_validate_witness :
    IsValidCrosshairCode (GetCrosshairCode ⟨50, 50, 20, 10, true, 0xFFFFFFFF, 0x12345678⟩) =
      true :=
  encode_passes_validate ⟨50, 50, 20, 10, true, 0xFFFFFFFF, 0x12345678⟩
    (by decide) (by decide) (by decide) (by decide)


/-! ## The renderer -/

theorem DrawCrosshair_filled (cx cy len gap thickness : Int) (fillColor outlineColor : Nat)
    (centerDot : Bool) (outlineThickness : Int) :
    (DrawCrosshair cx cy len gap thickness fillColor outlineColor centerDot
        outlineThickness).filterMap GdiCall.filled =
      [DrawCrosshair.left cx cy len gap thickness, DrawCrosshair.right cx cy len gap thickness,
        DrawCrosshair.top cx cy len gap thickness, DrawCrosshair.bottom cx cy len gap thickness]
        ++ (if centerDot then [DrawCrosshair.dot cx cy thickness] else []) := by
  cases centerDot <;> by_cases h : outlineThickness > 0 <;>
    simp [DrawCrosshair, DrawRectWithOutline, h, GdiCall.filled, List.filterMap_cons]

theorem two_mul_tdiv_two (t : Int) (h : t % 2 = 0) : 2 * Int.tdiv t 2 = t :=
  Int.mul_tdiv_cancel' (Int.dvd_of_emod_eq_zero h)

/-- C6: for every call of `DrawCrosshair`, the number of fills is 4 when centerDot is false
and 5 when it is true; each shape gets one fill, and a border stroke if and only if
outlineThickness > 0, so the number of strokes is 0 when outlineThickness <= 0 and the number
of fills otherwise. -/
theorem render_fill_and_stroke_counts (cx cy len gap thickness : Int)
    (fillColor outlineColor : Nat) (centerDot : Bool) (outlineThickness : Int) :
    (DrawCrosshair cx cy len gap thickness fillColor outlineColor centerDot
        outlineThickness).countP GdiCall.isFill = (if centerDot then 5 else 4) ∧
    (DrawCrosshair cx cy len gap thickness fillColor outlineColor centerDot
        outlineThickness).countP GdiCall.isStroke =
      (if outlineThickness > 0 then
        (DrawCrosshair cx cy len gap thickness fillColor outlineColor centerDot
          outlineThickness).countP GdiCall.isFill
       else 0) ∧
    DrawCrosshair cx cy len gap thickness fillColor outlineColor centerDot outlineThickness =
      ([DrawCrosshair.left cx cy len gap thickness, DrawCrosshair.right cx cy len gap thickness,
        DrawCrosshair.top cx cy len gap thickness, DrawCrosshair.bottom cx cy len gap thickness]
        ++ (if centerDot then [DrawCrosshair.dot cx cy thickness] else [])).flatMap
        (DrawRectWithOutline fillColor outlineColor outlineThickness) ∧
    (∀ r : RECT,
      (DrawRectWithOutline fillColor outlineColor outlineThickness r).countP GdiCall.isFill = 1 ∧
      ((DrawRectWithOutline fillColor outlineColor outlineThickness r).countP GdiCall.isStroke =
        (if outlineThickness > 0 then 1 else 0)) ∧
      (GdiCall.Rectangle r.left r.top r.right r.bottom outlineThickness outlineColor ∈
        DrawRectWithOutline fillColor outlineColor outlineThickness r ↔ outlineThickness > 0)) := by
  refine ⟨?_, ?_, ?_, ?_⟩
  · cases centerDot <;> by_cases h : outlineThickness > 0 <;>
      simp [DrawCrosshair, DrawRectWithOutline, h, GdiCall.isFill, List.countP_cons]
  · cases centerDot <;> by_cases h : outlineThickness > 0 <;>
      simp [DrawCrosshair, DrawRectWithOutline, h, GdiCall.isFill, GdiCall.isStroke,
        List.countP_cons]
  · cases centerDot <;> simp [DrawCrosshair, List.flatMap]
  · intro r
    by_cases h : outlineThickness > 0 <;>
      simp [DrawRectWithOutline, h, GdiCall.isFill, GdiCall.isStroke, List.countP_cons]

/-- C7 (as amended): for every thickness and centre, the left and right arms are centred on
`cy` and the top and bottom arms on `cx`, the dot on both, with extent twice the truncated
half `thickness / 2`; that extent is exactly `thickness` whenever `thickness` is even, as in
every call of the repaint handler, which passes `g_thickness * 2`. -/
theorem render_arm_extent (cx cy len gap thickness : Int) :
    ((DrawCrosshair.left cx cy len gap thickness).bottom -
        (DrawCrosshair.left cx cy len gap thickness).top = 2 * Int.tdiv thickness 2 ∧
      (DrawCrosshair.left cx cy len gap thickness).top +
        (DrawCrosshair.left cx cy len gap thickness).bottom = 2 * cy ∧
      (DrawCrosshair.right cx cy len gap thickness).bottom -
        (DrawCrosshair.right cx cy len gap thickness).top = 2 * Int.tdiv thickness 2 ∧
      (DrawCrosshair.right cx cy len gap thickness).top +
        (DrawCrosshair.right cx cy len gap thickness).bottom = 2 * cy ∧
      (DrawCrosshair.top cx cy len gap thickness).right -
        (DrawCrosshair.top cx cy len gap thickness).left = 2 * Int.tdiv thickness 2 ∧
      (DrawCrosshair.top cx cy len gap thickness).left +
        (DrawCrosshair.top cx cy len gap thickness).right = 2 * cx ∧
      (DrawCrosshair.bottom cx cy len gap thickness).right -
        (DrawCrosshair.bottom cx cy len gap thickness).left = 2 * Int.tdiv thickness 2 ∧
      (DrawCrosshair.bottom cx cy len gap thickness).left +
        (DrawCrosshair.bottom cx cy len gap thickness).right = 2 * cx ∧
      (DrawCrosshair.dot cx cy thickness).right - (DrawCrosshair.dot cx cy thickness).left =
        2 * Int.tdiv thickness 2 ∧
      (DrawCrosshair.dot cx cy thickness).bottom - (DrawCrosshair.dot cx cy thickness).top =
        2 * Int.tdiv thickness 2 ∧
      (DrawCrosshair.dot cx cy thickness).left + (DrawCrosshair.dot cx cy thickness).right =
        2 * cx ∧
      (DrawCrosshair.dot cx cy thickness).top + (DrawCrosshair.dot cx cy thickness).bottom =
        2 * cy) ∧
    (thickness % 2 = 0 → 2 * Int.tdiv thickness 2 = thickness) ∧
    (∀ (fillColor outlineColor : Nat) (centerDot : Bool) (outlineThickness : Int),
      (DrawCrosshair cx cy len gap thickness fillColor outlineColor centerDot
          outlineThickness).filterMap GdiCall.filled =
        [DrawCrosshair.left cx cy len gap thickness, DrawCrosshair.right cx cy len gap thickness,
          DrawCrosshair.top cx cy len gap thickness,
          DrawCrosshair.bottom cx cy len gap thickness]
          ++ (if centerDot then [DrawCrosshair.dot cx cy thickness] else [])) ∧
    (∀ (screenW screenH : Int) (c : CrosshairConfig),
      WndProc_WM_PAINT screenW screenH c =
        GdiCall.FillRect ⟨0, 0, screenW, screenH⟩ (RGB 0 0 0) ::
          DrawCrosshair (Int.tdiv screenW 2) (Int.tdiv screenH 2) c.g_len c.g_gap
            (c.g_thickness * 2) c.g_fillColor c.g_outlineColor c.g_centerDot
            c.g_outlineThickness ∧
      2 * Int.tdiv (c.g_thickness * 2) 2 = c.g_thickness * 2) := by
  refine ⟨?_, two_mul_tdiv_two thickness,
    fun fc oc dot ot => DrawCrosshair_filled cx cy len gap thickness fc oc dot ot, ?_⟩
  · simp only [DrawCrosshair.left, DrawCrosshair.right, DrawCrosshair.top,
      DrawCrosshair.bottom, DrawCrosshair.dot]
    refine ⟨?_, ?_, ?_, ?_, ?_, ?_, ?_, ?_, ?_, ?_, ?_, ?_⟩ <;> ring
  · intro screenW screenH c
    refine ⟨rfl, two_mul_tdiv_two _ ?_⟩
    omega

theorem render_arm_extent_witness :
    (DrawCrosshair.left 960 540 7 1 4).bottom - (DrawCrosshair.left 960 540 7 1 4).top = 4 :=
  ((render_arm_extent 960 540 7 1 4).1.1).trans
    ((render_arm_extent 960 540 7 1 4).2.1 (by decide))

/-- C7 (counterexample): called with thickness 3, the left arm is 2 pixels high (rows 539 and
540 around `cy = 540`) and the dot is a square of side 2, not 3. -/
theorem render_odd_thickness_extent :
    DrawCrosshair.left 960 540 7 1 3 = ⟨952, 539, 959, 541⟩ ∧
      (DrawCrosshair.left 960 540 7 1 3).bottom - (DrawCrosshair.left 960 540 7 1 3).top ≠ 3 ∧
      DrawCrosshair.dot 960 540 3 = ⟨959, 539, 961, 541⟩ ∧
      (DrawCrosshair.dot 960 540 3).right - (DrawCrosshair.dot 960 540 3).left ≠ 3 := by
  decide

/-- C8: for every centre, armLength, thickness and gap, the right edge of the left arm is
`cx - gap` and the left edge of the right arm is `cx + gap` (these are the first two
rectangles `DrawCrosshair` fills); and whenever `gap >= 0` no pixel column belongs to both
arms. -/
theorem render_arms_disjoint (cx cy len gap thickness : Int) :
    (DrawCrosshair.left cx cy len gap thickness).right = cx - gap ∧
    (DrawCrosshair.right cx cy len gap thickness).left = cx + gap ∧
    (∀ (fillColor outlineColor : Nat) (centerDot : Bool) (outlineThickness : Int),
      ((DrawCrosshair cx cy len gap thickness fillColor outlineColor centerDot
          outlineThickness).filterMap GdiCall.filled).take 2 =
        [DrawCrosshair.left cx cy len gap thickness,
          DrawCrosshair.right cx cy len gap thickness]) ∧
    (0 ≤ gap → ∀ x : Int,
      ¬ ((DrawCrosshair.left cx cy len gap thickness).hasColumn x ∧
         (DrawCrosshair.right cx cy len gap thickness).hasColumn x)) := by
  refine ⟨rfl, rfl, ?_, ?_⟩
  · intro fc oc dot ot
    rw [DrawCrosshair_filled]
    rfl
  intro hgap x
  simp only [RECT.hasColumn, DrawCrosshair.left, DrawCrosshair.right]
  omega

theorem render_arms_disjoint_witness :
    ¬ ((DrawCrosshair.left 960 540 7 0 4).hasColumn 960 ∧
       (DrawCrosshair.right 960 540 7 0 4).hasColumn 960) :=
  (render_arms_disjoint 960 540 7 0 4).2.2.2 (by decide) 960

/-! ## The settings window -/

/-- C4: the load action (`WM_COMMAND` 5) on a code field that fails `IsValidCrosshairCode`
leaves the configuration (all seven fields) unchanged and does not call `LoadCrosshairCode`;
on a code field that passes, the resulting configuration is `LoadCrosshairCode` of that
text. -/
theorem load_action_atomic (chosen : Option Nat) (uninit : ScanLocals) (st : SettingsWindow) :
    (IsValidCrosshairCode st.codeInput = false →
      (SettingsProc chosen uninit st (Msg.WM_COMMAND 5)).1.cfg = st.cfg ∧
      (SettingsProc chosen uninit st (Msg.WM_COMMAND 5)).1 = st ∧
      ∀ code, UiCall.LoadCrosshairCode code ∉
        (SettingsProc chosen uninit st (Msg.WM_COMMAND 5)).2) ∧
    (IsValidCrosshairCode st.codeInput = true →
      (SettingsProc chosen uninit st (Msg.WM_COMMAND 5)).1.cfg =
        LoadCrosshairCode uninit st.codeInput ∧
      UiCall.LoadCrosshairCode st.codeInput ∈
        (SettingsProc chosen uninit st (Msg.WM_COMMAND 5)).2) := by
  obtain ⟨e1, e2⟩ := isValid_take_255 st.codeInput
  constructor
  · intro h
    rw [← e1] at h
    simp [SettingsProc, h]
  · intro h
    have e3 := e2 h
    simp [SettingsProc, e3, h]

theorem load_action_atomic_witness :
    (SettingsProc none ⟨-1, -1, -1, -1, -1, 0, 0⟩
        ⟨⟨7, 1, 2, 1, false, 0x00FFFF, 0x010000⟩, "07011500-0000FF-00FF00".toList, [], [], [],
          []⟩ (Msg.WM_COMMAND 5)).1.cfg = ⟨7, 1, 2, 1, false, 0x00FFFF, 0x010000⟩ ∧
    (SettingsProc none ⟨-1, -1, -1, -1, -1, 0, 0⟩
        ⟨⟨7, 1, 2, 1, false, 0x00FFFF, 0x010000⟩, "070115000-0000FF-00FF00".toList, [], [], [],
          []⟩ (Msg.WM_COMMAND 5)).1.cfg =
      LoadCrosshairCode ⟨-1, -1, -1, -1, -1, 0, 0⟩ "070115000-0000FF-00FF00".toList :=
  ⟨((load_action_atomic none ⟨-1, -1, -1, -1, -1, 0, 0⟩
      ⟨⟨7, 1, 2, 1, false, 0x00FFFF, 0x010000⟩, "07011500-0000FF-00FF00".toList, [], [], [],
        []⟩).1 (by decide)).1,
   ((load_action_atomic none ⟨-1, -1, -1, -1, -1, 0, 0⟩
      ⟨⟨7, 1, 2, 1, false, 0x00FFFF, 0x010000⟩, "070115000-0000FF-00FF00".toList, [], [], [],
        []⟩).2 (by decide)).1⟩

/-- C9: for every colour confirmed in the fill (respectively outline) picker, the stored
fillColor (respectively outlineColor) is `RGB(0,0,1)` when the picked colour is `RGB(0,0,0)`
and the picked colour otherwise; it is never `RGB(0,0,0)`, and no other configuration field
changes. -/
theorem picker_black_nudge (picked : Nat) (uninit : ScanLocals) (st : SettingsWindow) :
    (SettingsProc (some picked) uninit st (Msg.WM_COMMAND 3)).1.cfg =
      { st.cfg with g_fillColor := if picked = RGB 0 0 0 then RGB 0 0 1 else picked } ∧
    (SettingsProc (some picked) uninit st (Msg.WM_COMMAND 3)).1.cfg.g_fillColor ≠ RGB 0 0 0 ∧
    (SettingsProc (some picked) uninit st (Msg.WM_COMMAND 4)).1.cfg =
      { st.cfg with g_outlineColor := if picked = RGB 0 0 0 then RGB 0 0 1 else picked } ∧
    (SettingsProc (some picked) uninit st (Msg.WM_COMMAND 4)).1.cfg.g_outlineColor ≠
      RGB 0 0 0 ∧
    RGB 0 0 0 = 0x000000 ∧ RGB 0 0 1 = 0x010000 := by
  have h0 : RGB 0 0 0 = 0 := by decide
  have h1 : RGB 0 0 1 = 65536 := by decide
  refine ⟨rfl, ?_, rfl, ?_, h0, h1⟩
  · simp only [SettingsProc, h0, h1]
    split_ifs with h <;> omega
  · simp only [SettingsProc, h0, h1]
    split_ifs with h <;> omega


/-- C11: for every string `s` that passes `IsValidCrosshairCode`, `GetCrosshairCode` of the
configuration `LoadCrosshairCode` produces from `s` is `s` with the letters a-f replaced by
A-F, so it is `s` itself when `s` holds no lower-case hexadecimal letter; this is the text
the load action (`WM_COMMAND` 5) writes back into the code field. -/
theorem reencode_normalises_case (s : List Char) (uninit : ScanLocals)
    (h : IsValidCrosshairCode s = true) :
    GetCrosshairCode (LoadCrosshairCode uninit s) = s.map upperHexLetter ∧
    ((∀ c ∈ s, c ∉ "abcdef".toList) → GetCrosshairCode (LoadCrosshairCode uninit s) = s) ∧
    (∀ (chosen : Option Nat) (st : SettingsWindow), st.codeInput = s →
      (SettingsProc chosen uninit st (Msg.WM_COMMAND 5)).1.codeInput =
        s.map upperHexLetter) ∧
    "abcdef".toList.map upperHexLetter = "ABCDEF".toList ∧
    (∀ c : Char, c ∉ "abcdef".toList → upperHexLetter c = c) := by
  have key := GetCrosshairCode_LoadCrosshairCode_valid uninit s h
  refine ⟨key, ?_, ?_, by decide, upperHexLetter_of_not_mem⟩
  · intro hs
    rw [key]
    conv_rhs => rw [← List.map_id s]
    exact List.map_congr_left fun c hc => upperHexLetter_of_not_mem c (hs c hc)
  · intro chosen st hst
    subst hst
    obtain ⟨e1, e2⟩ := isValid_take_255 st.codeInput
    have e3 := e2 h
    simp [SettingsProc, e3, h, key]

theorem reencode_normalises_case_witness :
    GetCrosshairCode
        (LoadCrosshairCode ⟨-1, -1, -1, -1, -1, 0, 0⟩ "501020101-abcDEF-0a2b4c".toList) =
      "501020101-ABCDEF-0A2B4C".toList :=
  ((reencode_normalises_case "501020101-abcDEF-0a2b4c".toList ⟨-1, -1, -1, -1, -1, 0, 0⟩
    (by decide)).1).trans (by decide)

/-- C12 (the code at the failing input): `WM_HSCROLL` writes the code field from the globals
before it stores the new position, so the field shows the code of the configuration as it
was before the event.  From the window opened on the default configuration, moving the
length slider (101) from 7 to 8 leaves `070102010-00FFFF-010000` in the field while the
updated configuration encodes as `080102010-00FFFF-010000`; only a further event at the same
position brings the field up to date.  The toggle (`WM_COMMAND` 2) writes the field after
its update. -/
theorem slider_shows_previous_code :
    (∀ (chosen : Option Nat) (uninit : ScanLocals) (st : SettingsWindow) (ctrlId : Nat)
        (pos : Int),
      (SettingsProc chosen uninit st (Msg.WM_HSCROLL ctrlId pos)).1.codeInput =
        GetCrosshairCode st.cfg) ∧
    (SettingsProc none ⟨0, 0, 0, 0, 0, 0, 0⟩ (openedWindow ⟨7, 1, 2, 1, false, 65535, 65536⟩)
        (Msg.WM_HSCROLL 101 8)).1.cfg = ⟨8, 1, 2, 1, false, 65535, 65536⟩ ∧
    (SettingsProc none ⟨0, 0, 0, 0, 0, 0, 0⟩ (openedWindow ⟨7, 1, 2, 1, false, 65535, 65536⟩)
        (Msg.WM_HSCROLL 101 8)).1.codeInput = "070102010-00FFFF-010000".toList ∧
    GetCrosshairCode ⟨8, 1, 2, 1, false, 65535, 65536⟩ = "080102010-00FFFF-010000".toList ∧
    (SettingsProc none ⟨0, 0, 0, 0, 0, 0, 0⟩ (openedWindow ⟨7, 1, 2, 1, false, 65535, 65536⟩)
        (Msg.WM_HSCROLL 101 8)).1.codeInput ≠
      GetCrosshairCode
        (SettingsProc none ⟨0, 0, 0, 0, 0, 0, 0⟩
          (openedWindow ⟨7, 1, 2, 1, false, 65535, 65536⟩) (Msg.WM_HSCROLL 101 8)).1.cfg ∧
    (SettingsProc none ⟨0, 0, 0, 0, 0, 0, 0⟩
        (SettingsProc none ⟨0, 0, 0, 0, 0, 0, 0⟩
          (openedWindow ⟨7, 1, 2, 1, false, 65535, 65536⟩) (Msg.WM_HSCROLL 101 8)).1
        (Msg.WM_HSCROLL 101 8)).1.codeInput = "080102010-00FFFF-010000".toList ∧
    (∀ (chosen : Option Nat) (uninit : ScanLocals) (st : SettingsWindow),
      (SettingsProc chosen uninit st (Msg.WM_COMMAND 2)).1.codeInput =
        GetCrosshairCode (SettingsProc chosen uninit st (Msg.WM_COMMAND 2)).1.cfg) := by
  refine ⟨?_, by decide, by decide, by decide, by decide, by decide, ?_⟩
  · intro chosen uninit st ctrlId pos
    simp only [SettingsProc]
    split_ifs <;> rfl
  · intro chosen uninit st
    rfl

end AdrixCH
